import Mathlib

/-!
Shallow embedding of the dioxus-web render-scheduling loop
(`packages/web/src/lib.rs`).

The scheduling core is `run_with_props`: startup (virtual dom construction,
root element lookup, event sender wiring, initial rebuild) followed by an
unbounded loop that, per iteration, awaits pending work, awaits an idle
deadline, drives the diff engine under a non-suspending expiry predicate,
awaits the next animation frame, and applies the produced mutation batches.

The external collaborators (diff engine, patch applier, host notification
sources) are opaque to the loop; we embed the loop as a function from an
oracle describing their answers to the finite trace of observable events of
the first `n` iterations, and prove the claims as properties of that trace.
Parts of the crate that are not in the sources at hand (the `ric_raf` and
`cfg` modules, dioxus-core) are modelled from the spec where a claim needs
their behaviour; each such definition says so in its doc comment.
-/

namespace DioxusWeb

/-- A batch of mutation records produced by one diff pass (`Mutations` in
dioxus-core). The individual edit records are opaque to the scheduler and are
modelled as natural numbers; the scheduler only ever reads the `edits` field
and hands it to `process_edits`. -/
structure Mutations where
  edits : List Nat
  deriving DecidableEq, Repr

/-- The observable actions of `run_with_props`, in program order: the initial
full-tree `rebuild`, the three awaited suspension points of the loop, the
deadline-bounded diff call carrying the batches it returned, the individual
`step` calls of the (spec-modelled) diff engine, and each hand-off of an edit
list to the patch applier (`process_edits`). -/
inductive Event where
  | rebuild (batch : Mutations)
  | wait_for_work
  | wait_for_idle_time
  | run_with_deadline (batches : List Mutations)
  | wait_for_raf
  | process_edits (edits : List Nat)
  | step_call (idx : Nat)
  deriving DecidableEq, Repr

/-- The configuration struct consumed once at startup (lib.rs line 122 and
lines 143-145): the hydrate flag and the root element identifier. -/
structure WebConfig where
  hydrate : Bool
  rootname : String
  deriving DecidableEq, Repr

/-- Modelled from the spec: the default configuration comes from the crate
`cfg` module, which is not among the sources here; the spec fixes the
configuration surface (root element identifier, hydrate flag) but not the
default values, so this default is an arbitrary concrete choice. No claim
depends on the particular values. -/
def WebConfig.default : WebConfig :=
  { hydrate := false, rootname := "main" }

/-- Oracle for the external collaborators of the loop: the batch returned by
the initial `dom.rebuild()` and, for each loop iteration, the list of batches
returned by that iteration's `dom.run_with_deadline` call. The scheduling
loop treats both as opaque data. -/
structure Env where
  rebuildResult : Mutations
  deadlineBatches : Nat → List Mutations

/-- Events of the startup phase of `run_with_props` (lib.rs lines 153-160):
the initial rebuild batch is always computed; unless the hydrate flag is set,
its edits are handed to `process_edits` immediately, before the loop and with
no frame signal. -/
def startupEvents (cfg : WebConfig) (env : Env) : List Event :=
  Event.rebuild env.rebuildResult ::
    (if cfg.hydrate then [] else [Event.process_edits env.rebuildResult.edits])

/-- Events of one iteration of the scheduling loop (lib.rs lines 164-183):
await work, await the idle deadline, run the diff engine under the deadline,
await the animation frame, then apply every returned batch in order. -/
def iterEvents (bs : List Mutations) : List Event :=
  Event.wait_for_work :: Event.wait_for_idle_time :: Event.run_with_deadline bs ::
    Event.wait_for_raf :: bs.map (fun b => Event.process_edits b.edits)

/-- Events of the first `n` iterations of the scheduling loop. -/
def loopEvents (env : Env) : Nat → List Event
  | 0 => []
  | n + 1 => loopEvents env n ++ iterEvents (env.deadlineBatches n)

/-- The full event trace of `run_with_props` observed for `n` loop
iterations: the startup phase followed by the loop. -/
def runEvents (cfg : WebConfig) (env : Env) (n : Nat) : List Event :=
  startupEvents cfg env ++ loopEvents env n

/-- Modelled from the spec: the host document, supporting root-element lookup
by identifier and returning either a handle or not-found (the `dom` module
with `load_document` is not among the sources here; the spec states this
lookup surface). Elements are identifier-to-handle pairs. -/
structure Document where
  elements : List (String × Nat)
  deriving DecidableEq, Repr

/-- Root-element lookup by identifier. -/
def Document.get_element_by_id (doc : Document) (id : String) : Option Nat :=
  (doc.elements.find? (fun p => p.1 == id)).map Prod.snd

/-- The startup failure of `run_with_props`: the configured root element is
absent from the host document, so the `unwrap` at lib.rs line 145 aborts. -/
inductive StartupError where
  | missingRoot
  deriving DecidableEq, Repr

/-- The whole of `run_with_props` observed for `n` loop iterations. The root
element lookup (lib.rs line 145) happens before the rebuild and before the
loop; a missing element makes the `unwrap` abort startup (modelled as an
error result), producing no events at all. -/
def run_with_props (doc : Document) (cfg : WebConfig) (env : Env) (n : Nat) :
    Except StartupError (List Event) :=
  match doc.get_element_by_id cfg.rootname with
  | none => Except.error StartupError.missingRoot
  | some _ => Except.ok (runEvents cfg env n)

/-- The type of a root component function (`FC<T>` in dioxus-core): the
scheduler never inspects it, only stores and forwards it. -/
def FC (T : Type) : Type :=
  T → Mutations

/-- The description of the task handed to `spawn_local` by the launch entry
points: the root component, its props, and the built configuration. -/
structure SpawnedTask (T : Type) where
  root : FC T
  root_props : T
  cfg : WebConfig

/-- `launch_with_props` (lib.rs lines 117-124): apply the configuration
builder to the default configuration and spawn `run_with_props` with the
given component and props. -/
def launch_with_props {T : Type} (root_component : FC T) (root_properties : T)
    (configuration_builder : WebConfig → WebConfig) : SpawnedTask T :=
  { root := root_component, root_props := root_properties,
    cfg := configuration_builder WebConfig.default }

/-- `launch` (lib.rs lines 93-95): the no-props entry point. -/
def launch (root_component : FC Unit)
    (configuration_builder : WebConfig → WebConfig) : SpawnedTask Unit :=
  launch_with_props root_component () configuration_builder

/-- Whether an event is one of the suspension points at which the loop yields
to the host scheduler: `wait_for_work`, `wait_for_idle_time` and
`wait_for_raf` are awaited; every other event is synchronous. -/
def Event.isSuspension : Event → Bool
  | Event.wait_for_work => true
  | Event.wait_for_idle_time => true
  | Event.wait_for_raf => true
  | _ => false

/-- The per-iteration suspension pattern of the spec state machine:
work-ready, then idle-deadline, then frame-ready, once per iteration. -/
def suspensionPattern : Nat → List Event
  | 0 => []
  | n + 1 => suspensionPattern n ++
      [Event.wait_for_work, Event.wait_for_idle_time, Event.wait_for_raf]

/-- Scan of a trace checking that every `process_edits` happens inside the
frame callback of its own iteration: the flag is set by `wait_for_raf`,
cleared when a new iteration begins at `wait_for_work`, and must be set at
every `process_edits`. -/
def appliesInFrame : Bool → List Event → Bool
  | _, [] => true
  | _, Event.wait_for_raf :: es => appliesInFrame true es
  | _, Event.wait_for_work :: es => appliesInFrame false es
  | canApply, Event.process_edits _ :: es => canApply && appliesInFrame canApply es
  | canApply, _ :: es => appliesInFrame canApply es

/-- The frame flag state left behind by scanning a trace, for composing
`appliesInFrame` across concatenation. -/
def frameFlag : Bool → List Event → Bool
  | s, [] => s
  | _, Event.wait_for_raf :: es => frameFlag true es
  | _, Event.wait_for_work :: es => frameFlag false es
  | s, _ :: es => frameFlag s es

/-- The edit lists handed to the patch applier, in trace order. -/
def appliedEdits : List Event → List (List Nat)
  | [] => []
  | Event.process_edits l :: es => l :: appliedEdits es
  | _ :: es => appliedEdits es

/-- The edit lists of the batches handed back by the diff engine through
`run_with_deadline`, in the order produced. -/
def producedEdits : List Event → List (List Nat)
  | [] => []
  | Event.run_with_deadline bs :: es => bs.map Mutations.edits ++ producedEdits es
  | _ :: es => producedEdits es

/-- Modelled from the spec: the deadline future produced by
`RafLoop.wait_for_idle_time` lives in the `ric_raf` module, which is not
among the sources here. Per the spec, a deadline handle represents one idle
period and resolves once the idle time budget has elapsed; we model it by the
poll time at which it resolves. One handle is obtained per iteration and is
valid only for that idle period. -/
structure DeadlineHandle where
  resolveAt : Nat
  deriving DecidableEq, Repr

/-- The deadline handle has resolved by poll time `t`: the idle budget
elapsed at `resolveAt`, and a resolved one-shot future stays resolved. -/
def DeadlineHandle.resolved (d : DeadlineHandle) (t : Nat) : Prop :=
  d.resolveAt ≤ t

instance (d : DeadlineHandle) (t : Nat) : Decidable (d.resolved t) :=
  Nat.decLe d.resolveAt t

/-- The non-suspending expiry check built at lib.rs line 173:
`(&mut deadline).now_or_never().is_some()` polls the deadline future exactly
once, never suspending, and reports whether it has already resolved. -/
def now_or_never_is_some (d : DeadlineHandle) (t : Nat) : Bool :=
  decide (d.resolved t)

/-- The `should_stop` closure the loop passes to `run_with_deadline`
(lib.rs line 173), as a function of the poll time. -/
def should_stop (d : DeadlineHandle) : Nat → Bool :=
  fun t => now_or_never_is_some d t

/-- The result of one incremental `step` of the diff engine (spec interface):
either more work remains, or the pass is done and yields a batch. -/
inductive StepResult where
  | cont
  | done (batch : Mutations)
  deriving DecidableEq, Repr

/-- Modelled from the spec: the diff engine (dioxus-core) is not among the
sources here; its deadline-bounded run drives the incremental `step` function
repeatedly, checks the injected non-suspending `should_stop` predicate after
each step, and stops as soon as a step reports done or the predicate reports
expiry. Returns the produced batches together with the number of `step` calls
issued; `fuel` bounds the recursion and `calls` counts the calls so far,
doubling as the poll time. -/
def run_with_deadline_steps (step : Nat → StepResult) (stop : Nat → Bool) :
    Nat → Nat → List Mutations × Nat
  | 0, calls => ([], calls)
  | fuel + 1, calls =>
    match step calls with
    | StepResult.done b => ([b], calls + 1)
    | StepResult.cont =>
      if stop (calls + 1) then ([], calls + 1)
      else run_with_deadline_steps step stop fuel (calls + 1)

/-- The `step_call` events issued by one deadline-bounded diff run. -/
def stepCallEvents (step : Nat → StepResult) (stop : Nat → Bool)
    (fuel : Nat) : List Event :=
  (List.range (run_with_deadline_steps step stop fuel 0).2).map Event.step_call

/-- The observable events of the diff phase of one iteration followed by its
frame wait: the issued `step_call` events, then the single `wait_for_raf`. -/
def diffPhaseEvents (step : Nat → StepResult) (stop : Nat → Bool)
    (fuel : Nat) : List Event :=
  stepCallEvents step stop fuel ++ [Event.wait_for_raf]

/-- A send failure of the internal event channel. -/
inductive SendError where
  | disconnected
  deriving DecidableEq, Repr

/-- An unrecoverable fault of the event-sender callback (the `unwrap` at
lib.rs line 149 aborting on a failed send). -/
inductive CallbackFault where
  | unwrapPanic
  deriving DecidableEq, Repr

/-- The event channel send `tasks.unbounded_send(event)` (lib.rs line 149);
whether the send succeeds is decided by the channel state `ok`. -/
def unbounded_send (ok : Bool) (event : Nat) : Except SendError Unit :=
  if ok then Except.ok () else Except.error SendError.disconnected

/-- The sender callback built at lib.rs line 149:
`move |event| tasks.unbounded_send(event).unwrap()` forwards the event into
the diff engine event queue and unwraps the result, so a failed send becomes
an unrecoverable fault rather than a silently dropped event. -/
def sender_callback (ok : Bool) (event : Nat) : Except CallbackFault Unit :=
  match unbounded_send ok event with
  | Except.ok u => Except.ok u
  | Except.error _ => Except.error CallbackFault.unwrapPanic

/-! Helper lemmas about trace composition. -/

theorem appliesInFrame_append (s : Bool) (xs ys : List Event) :
    appliesInFrame s (xs ++ ys) =
      (appliesInFrame s xs && appliesInFrame (frameFlag s xs) ys) := by
  induction xs generalizing s with
  | nil => simp [appliesInFrame, frameFlag]
  | cons e es ih => cases e <;> simp [appliesInFrame, frameFlag, ih, Bool.and_assoc]

theorem frameFlag_append (s : Bool) (xs ys : List Event) :
    frameFlag s (xs ++ ys) = frameFlag (frameFlag s xs) ys := by
  induction xs generalizing s with
  | nil => rfl
  | cons e es ih => cases e <;> simp [frameFlag, ih]

theorem appliesInFrame_applyBlock (bs : List Mutations) :
    appliesInFrame true (bs.map (fun b => Event.process_edits b.edits)) = true := by
  induction bs with
  | nil => rfl
  | cons b bs ih => simp [appliesInFrame, ih]

theorem frameFlag_applyBlock (s : Bool) (bs : List Mutations) :
    frameFlag s (bs.map (fun b => Event.process_edits b.edits)) = s := by
  induction bs with
  | nil => rfl
  | cons b bs ih => simp [frameFlag, ih]

theorem appliesInFrame_iterEvents (s : Bool) (bs : List Mutations) :
    appliesInFrame s (iterEvents bs) = true := by
  simp [iterEvents, appliesInFrame, appliesInFrame_applyBlock]

theorem frameFlag_iterEvents (s : Bool) (bs : List Mutations) :
    frameFlag s (iterEvents bs) = true := by
  simp [iterEvents, frameFlag, frameFlag_applyBlock]

theorem appliesInFrame_loopEvents (env : Env) (n : Nat) (s : Bool) :
    appliesInFrame s (loopEvents env n) = true := by
  induction n generalizing s with
  | zero => rfl
  | succ n ih =>
    simp [loopEvents, appliesInFrame_append, ih, appliesInFrame_iterEvents]

theorem appliedEdits_append (xs ys : List Event) :
    appliedEdits (xs ++ ys) = appliedEdits xs ++ appliedEdits ys := by
  induction xs with
  | nil => rfl
  | cons e es ih => cases e <;> simp [appliedEdits, ih]

theorem producedEdits_append (xs ys : List Event) :
    producedEdits (xs ++ ys) = producedEdits xs ++ producedEdits ys := by
  induction xs with
  | nil => rfl
  | cons e es ih => cases e <;> simp [producedEdits, ih]

theorem appliedEdits_applyBlock (bs : List Mutations) :
    appliedEdits (bs.map (fun b => Event.process_edits b.edits)) =
      bs.map Mutations.edits := by
  induction bs with
  | nil => rfl
  | cons b bs ih => simp [appliedEdits, ih]

theorem producedEdits_applyBlock (bs : List Mutations) :
    producedEdits (bs.map (fun b => Event.process_edits b.edits)) = [] := by
  induction bs with
  | nil => rfl
  | cons b bs ih => simp [producedEdits, ih]

theorem appliedEdits_iterEvents (bs : List Mutations) :
    appliedEdits (iterEvents bs) = bs.map Mutations.edits := by
  simp [iterEvents, appliedEdits, appliedEdits_applyBlock]

theorem producedEdits_iterEvents (bs : List Mutations) :
    producedEdits (iterEvents bs) = bs.map Mutations.edits := by
  simp [iterEvents, producedEdits, producedEdits_applyBlock]

theorem appliedEdits_loopEvents (env : Env) (n : Nat) :
    appliedEdits (loopEvents env n) = producedEdits (loopEvents env n) := by
  induction n with
  | zero => rfl
  | succ n ih =>
    simp [loopEvents, appliedEdits_append, producedEdits_append, ih,
      appliedEdits_iterEvents, producedEdits_iterEvents]

theorem filter_suspension_applyBlock (bs : List Mutations) :
    (bs.map (fun b => Event.process_edits b.edits)).filter Event.isSuspension
      = [] := by
  induction bs with
  | nil => rfl
  | cons b bs ih => simp [List.filter, Event.isSuspension, ih]

theorem filter_suspension_iterEvents (bs : List Mutations) :
    (iterEvents bs).filter Event.isSuspension =
      [Event.wait_for_work, Event.wait_for_idle_time, Event.wait_for_raf] := by
  simp [iterEvents, List.filter, Event.isSuspension, filter_suspension_applyBlock]

theorem filter_suspension_loopEvents (env : Env) (n : Nat) :
    (loopEvents env n).filter Event.isSuspension = suspensionPattern n := by
  induction n with
  | zero => rfl
  | succ n ih =>
    simp [loopEvents, suspensionPattern, List.filter_append, ih,
      filter_suspension_iterEvents]

theorem filter_suspension_stepCalls (l : List Nat) :
    (l.map Event.step_call).filter Event.isSuspension = [] := by
  induction l with
  | nil => rfl
  | cons i l ih => simp [List.filter, Event.isSuspension, ih]

/-- Claim C1, counterexample: with hydrate = false, the startup rebuild batch
is handed to `process_edits` (lib.rs line 159) before the loop starts and
with no `wait_for_raf` anywhere before it, so the trace of `run_with_props`
violates the in-frame application discipline at a concrete input. -/
theorem startup_apply_outside_frame_cex :
    appliesInFrame false
      (runEvents { hydrate := false, rootname := "app" }
        { rebuildResult := ⟨[0]⟩, deadlineBatches := fun _ => [⟨[1]⟩] } 1)
      = false := by
  decide

/-- Claim C1 (amended): every mutation batch applied by an iteration of the
scheduling loop is preceded, in the same iteration, by the resolved
`wait_for_raf`; however the startup rebuild batch, applied when hydrate is
false, is processed before the loop outside any frame callback, so the full
trace of `run_with_props` satisfies the in-frame discipline exactly when the
hydrate flag is true. -/
theorem applies_in_frame_iff_hydrate (cfg : WebConfig) (env : Env) (n : Nat) :
    (appliesInFrame false (runEvents cfg env n) = cfg.hydrate)
    ∧ (∀ s : Bool, appliesInFrame s (loopEvents env n) = true) := by
  constructor
  · have h2 := appliesInFrame_loopEvents env n
    rw [runEvents, appliesInFrame_append]
    cases hcfg : cfg.hydrate <;>
      simp [startupEvents, hcfg, appliesInFrame, frameFlag, h2]
  · exact appliesInFrame_loopEvents env n

/-- Claim C2 (confirmed): each iteration of the scheduling loop appends to
the trace exactly the five steps await-work, await-idle, deadline-bounded
diff, await-frame, apply, in that order; the suspension events of the first
`n` iterations are exactly the pattern work-ready, idle-deadline, frame-ready
repeated `n` times (three non-overlapping suspension points per iteration, in
strict order, each new iteration starting again at `wait_for_work`); and the
trace grows strictly with every iteration (the loop never returns). -/
theorem loop_iteration_structure (env : Env) (n : Nat) :
    (loopEvents env (n + 1) = loopEvents env n ++
        (Event.wait_for_work :: Event.wait_for_idle_time ::
          Event.run_with_deadline (env.deadlineBatches n) :: Event.wait_for_raf ::
          (env.deadlineBatches n).map (fun b => Event.process_edits b.edits)))
    ∧ ((loopEvents env n).filter Event.isSuspension = suspensionPattern n)
    ∧ ((loopEvents env n).length < (loopEvents env (n + 1)).length) := by
  refine ⟨rfl, filter_suspension_loopEvents env n, ?_⟩
  simp [loopEvents, iterEvents]

/-- Claim C3 (confirmed): the first pass batch (the initial rebuild) is
always computed, at the head of the trace; its edits are applied at startup
exactly when the hydrate flag is false; every batch produced inside the loop
is applied regardless; and the loop segment of the trace is
`loopEvents env n`, a value that does not depend on the configuration, so the
hydrate flag read once at startup has no effect on any later iteration. -/
theorem hydrate_first_pass_policy (cfg : WebConfig) (env : Env) (n : Nat) :
    ((runEvents cfg env n).head? = some (Event.rebuild env.rebuildResult))
    ∧ (appliedEdits (startupEvents cfg env) =
        if cfg.hydrate then [] else [env.rebuildResult.edits])
    ∧ (appliedEdits (loopEvents env n) = producedEdits (loopEvents env n))
    ∧ (List.drop (startupEvents cfg env).length (runEvents cfg env n) =
        loopEvents env n) := by
  refine ⟨rfl, ?_, appliedEdits_loopEvents env n, ?_⟩
  · cases hcfg : cfg.hydrate <;> simp [startupEvents, hcfg, appliedEdits]
  · rw [runEvents]
    exact List.drop_left _ _

/-- Claim C4 (confirmed, deadline model from the spec): the non-suspending
deadline-expiry check is monotone in the poll time for a fixed handle: once
it reports expired it keeps reporting expired for the rest of that idle
period. -/
theorem deadline_expiry_monotone (d : DeadlineHandle) (t u : Nat)
    (htu : t ≤ u) (h : now_or_never_is_some d t = true) :
    now_or_never_is_some d u = true := by
  simp only [now_or_never_is_some, decide_eq_true_eq,
    DeadlineHandle.resolved] at h ⊢
  exact le_trans h htu

/-- Witness for the monotonicity of the deadline-expiry check at a concrete
handle and pair of poll times. -/
theorem deadline_expiry_monotone_witness :
    (3 ≤ 5 ∧ now_or_never_is_some ⟨3⟩ 3 = true)
    ∧ now_or_never_is_some ⟨3⟩ 5 = true :=
  ⟨⟨by decide, by decide⟩, deadline_expiry_monotone ⟨3⟩ 3 5 (by decide) (by decide)⟩

/-- Claim C5 (confirmed, deadline model from the spec): the `should_stop`
predicate the loop passes to the deadline-bounded diff run returns true
exactly when the deadline handle of the current iteration has resolved, and
driving the diff engine with it produces no suspension events: the diff phase
never yields control back to the host scheduler. -/
theorem should_stop_is_nonsuspending_expiry (d : DeadlineHandle) (t : Nat) :
    (should_stop d t = true ↔ d.resolved t)
    ∧ (∀ (step : Nat → StepResult) (fuel : Nat),
        (stepCallEvents step (should_stop d) fuel).filter Event.isSuspension
          = []) := by
  constructor
  · simp [should_stop, now_or_never_is_some]
  · intro step fuel
    exact filter_suspension_stepCalls _

/-- Witness for the `should_stop` characterisation at a concrete handle, poll
time, step function and fuel. -/
theorem should_stop_is_nonsuspending_expiry_witness :
    (should_stop ⟨2⟩ 3 = true)
    ∧ ((stepCallEvents (fun _ => StepResult.cont) (should_stop ⟨2⟩) 4).filter
        Event.isSuspension = []) :=
  ⟨((should_stop_is_nonsuspending_expiry ⟨2⟩ 3).1).mpr (by decide),
   (should_stop_is_nonsuspending_expiry ⟨2⟩ 3).2 (fun _ => StepResult.cont) 4⟩

theorem run_with_deadline_steps_done (step : Nat → StepResult)
    (stop : Nat → Bool) (b : Mutations) :
    ∀ (k fuel c : Nat), k < fuel →
      (∀ j, j < k → step (c + j) = StepResult.cont ∧ stop (c + j + 1) = false) →
      step (c + k) = StepResult.done b →
      run_with_deadline_steps step stop fuel c = ([b], c + k + 1) := by
  intro k
  induction k with
  | zero =>
    intro fuel c hk hj hdone
    match fuel, hk with
    | f + 1, _ =>
      have hd : step c = StepResult.done b := by simpa using hdone
      simp [run_with_deadline_steps, hd]
  | succ k ih =>
    intro fuel c hk hj hdone
    match fuel, hk with
    | f + 1, hk =>
      have h0 := hj 0 (Nat.succ_pos k)
      have hstep : step c = StepResult.cont := by simpa using h0.1
      have hstop : stop (c + 1) = false := by simpa using h0.2
      have hrec := ih f (c + 1) (by omega)
        (fun j hjk => by
          have h := hj (j + 1) (Nat.succ_lt_succ hjk)
          have e1 : c + (j + 1) = c + 1 + j := by omega
          rw [e1] at h
          exact h)
        (by
          have e : c + (k + 1) = c + 1 + k := by omega
          rw [e] at hdone
          exact hdone)
      have e3 : c + 1 + k + 1 = c + (k + 1) + 1 := by omega
      rw [e3] at hrec
      simpa [run_with_deadline_steps, hstep, hstop] using hrec

/-- Claim C6 (confirmed, diff-engine model from the spec): if the diff engine
reports done at step `k` while every earlier step continued and the deadline
predicate had not yet reported expiry, the deadline-bounded run stops after
exactly `k + 1` step calls - no further step is issued and the rest of the
idle period is not waited out - and the diff phase of the iteration proceeds
directly to the `wait_for_raf` suspension. -/
theorem done_proceeds_to_frame (step : Nat → StepResult) (stop : Nat → Bool)
    (fuel k : Nat) (b : Mutations) (hk : k < fuel)
    (hbefore : ∀ j, j < k → step j = StepResult.cont ∧ stop (j + 1) = false)
    (hdone : step k = StepResult.done b) :
    (run_with_deadline_steps step stop fuel 0 = ([b], k + 1))
    ∧ diffPhaseEvents step stop fuel =
        (List.range (k + 1)).map Event.step_call ++ [Event.wait_for_raf] := by
  have h := run_with_deadline_steps_done step stop b k fuel 0 hk
    (fun j hj => by simpa using hbefore j hj)
    (by simpa using hdone)
  have h2 : run_with_deadline_steps step stop fuel 0 = ([b], k + 1) := by
    simpa using h
  exact ⟨h2, by simp [diffPhaseEvents, stepCallEvents, h2]⟩

/-- Witness for the no-spin-wait property at a concrete step function that
reports done on its third call, with the deadline never expiring. -/
theorem done_proceeds_to_frame_witness :
    (2 < 9)
    ∧ run_with_deadline_steps
        (fun j => if j = 2 then StepResult.done ⟨[7]⟩ else StepResult.cont)
        (fun _ => false) 9 0 = ([⟨[7]⟩], 3) :=
  ⟨by decide,
   (done_proceeds_to_frame
      (fun j => if j = 2 then StepResult.done ⟨[7]⟩ else StepResult.cont)
      (fun _ => false) 9 2 ⟨[7]⟩ (by decide) (by decide) (by decide)).1⟩

/-- Claim C7 (confirmed): if the configured root element identifier is absent
from the host document, `run_with_props` aborts with the missing-root error
(the `unwrap` at lib.rs line 145), producing no trace at all: the scheduling
loop never runs an iteration and no retry is attempted. -/
theorem missing_root_aborts_startup (doc : Document) (cfg : WebConfig)
    (env : Env) (n : Nat)
    (h : doc.get_element_by_id cfg.rootname = none) :
    run_with_props doc cfg env n = Except.error StartupError.missingRoot := by
  simp [run_with_props, h]

/-- Witness for the missing-root abort at a concrete empty document. -/
theorem missing_root_aborts_startup_witness :
    (Document.get_element_by_id ⟨[]⟩ "app" = none)
    ∧ run_with_props ⟨[]⟩ { hydrate := false, rootname := "app" }
        { rebuildResult := ⟨[]⟩, deadlineBatches := fun _ => [] } 5 =
        Except.error StartupError.missingRoot :=
  ⟨rfl, missing_root_aborts_startup ⟨[]⟩ { hydrate := false, rootname := "app" }
    { rebuildResult := ⟨[]⟩, deadlineBatches := fun _ => [] } 5 rfl⟩

/-- Claim C8 (confirmed): over the first `n` iterations, the edit lists
handed to the patch applier are exactly the edit lists of the batches
returned by the deadline-bounded diff calls, in the order produced; each
iteration contributes exactly its own batches; and each observed trace is a
prefix of the next, so every batch is fully consumed within the iteration
that produced it and none is retained into a later iteration. -/
theorem batches_applied_in_order (env : Env) (n : Nat) :
    (appliedEdits (loopEvents env n) = producedEdits (loopEvents env n))
    ∧ (producedEdits (loopEvents env (n + 1)) =
        producedEdits (loopEvents env n) ++
          (env.deadlineBatches n).map Mutations.edits)
    ∧ loopEvents env n <+: loopEvents env (n + 1) := by
  refine ⟨appliedEdits_loopEvents env n, ?_, ?_⟩
  · simp [loopEvents, producedEdits_append, producedEdits_iterEvents]
  · exact ⟨iterEvents (env.deadlineBatches n), rfl⟩

/-- Claim C9 (confirmed): when the internal task-channel send fails, the
event-sender callback propagates the failure as an unrecoverable fault (the
unwrap aborts); the dispatched event is never silently dropped with a
successful result. -/
theorem send_failure_is_fault (ok : Bool) (event : Nat) (e : SendError)
    (h : unbounded_send ok event = Except.error e) :
    sender_callback ok event = Except.error CallbackFault.unwrapPanic := by
  simp [sender_callback, h]

/-- Witness for the send-failure fault at a concrete closed channel. -/
theorem send_failure_is_fault_witness :
    (unbounded_send false 7 = Except.error SendError.disconnected)
    ∧ sender_callback false 7 = Except.error CallbackFault.unwrapPanic :=
  ⟨rfl, send_failure_is_fault false 7 SendError.disconnected rfl⟩

/-- Claim C10 (confirmed): the no-props entry point `launch` is exactly
`launch_with_props` applied to the unit value, for every root component and
configuration builder. -/
theorem launch_refines_launch_with_props (root_component : FC Unit)
    (configuration_builder : WebConfig → WebConfig) :
    launch root_component configuration_builder =
      launch_with_props root_component () configuration_builder :=
  rfl

end DioxusWeb
